import Mathlib

/-!
Verification of the core of `chws_subset/__init__.py`: the exclusion-set
constants (`EMOJI_IN_CJK`, `ANDROID_EMOJI`, `CONTROL_CHARS`,
`EXCLUDED_CODEPOINTS`), the collection editor `remove_codepoints_from_ttc`,
and the helper `download_file`.

The repository's own code is embedded directly from the source.  The source
calls four external libraries (fontTools `ttLib`, nototools `font_data` and
`tool_utils`, and `httpx`); their behaviour at the narrow interfaces the
source uses is modelled from the specification, and every such definition is
marked `Modelled from the spec:` in its doc comment.
-/

namespace ChwsSubset

/-- A Unicode codepoint, used only as a set element / mapping key. -/
abbrev Codepoint := Nat

/-- A glyph identifier inside one font. -/
abbrev GlyphId := Nat

/-- Codepoints supported in Noto CJK fonts that UTR #51 recommends default to
emoji-style, transcribed from the `EMOJI_IN_CJK` literal in the source. -/
def EMOJI_IN_CJK : List Codepoint :=
  [0x26BD, 0x26BE, 0x1F18E, 0x1F191, 0x1F192, 0x1F193, 0x1F194, 0x1F195,
   0x1F196, 0x1F197, 0x1F198, 0x1F199, 0x1F19A, 0x1F201, 0x1F21A, 0x1F22F,
   0x1F232, 0x1F233, 0x1F234, 0x1F235, 0x1F236, 0x1F238, 0x1F239, 0x1F23A,
   0x1F250, 0x1F251]

/-- Codepoints Android renders emoji-style despite UTR #51, transcribed from
the `ANDROID_EMOJI` literal in the source. -/
def ANDROID_EMOJI : List Codepoint :=
  [0x2600, 0x2601, 0x260E, 0x261D, 0x263A, 0x2660, 0x2663, 0x2665, 0x2666,
   0x270C, 0x2744, 0x2764]

/-- Modelled from the spec: `tool_utils.parse_int_ranges` (nototools, external
to this repository) applied to the range expression "0000-001F" — "all
codepoints in the inclusive numeric range [0x0000, 0x001F] ... expanded from a
range expression into individual integers". -/
def parse_int_ranges_0000_001F : List Codepoint :=
  List.range 0x20

/-- `CONTROL_CHARS = set(tool_utils.parse_int_ranges("0000-001F"))`. -/
def CONTROL_CHARS : List Codepoint :=
  parse_int_ranges_0000_001F

/-- `EXCLUDED_CODEPOINTS = frozenset(sorted(EMOJI_IN_CJK | ANDROID_EMOJI |
CONTROL_CHARS))`: the union of the three sources as a set (the `sorted` call
only fixes an iteration order, which a set does not retain). -/
def EXCLUDED_CODEPOINTS : Finset Codepoint :=
  (EMOJI_IN_CJK ++ ANDROID_EMOJI ++ CONTROL_CHARS).toFinset

/-- One character-mapping (cmap) subtable of a font: the platform / encoding /
format identifiers and the codepoint-to-glyph entries (keys unique). -/
structure CMapSubtable where
  platformID : Nat
  platEncID : Nat
  format : Nat
  cmap : List (Codepoint × GlyphId)
deriving DecidableEq

/-- One font of the collection: its cmap subtables plus all other tables
(outlines, metrics, names, ...), which the editor treats as opaque bytes
keyed by table tag. -/
structure Font where
  cmapTables : List CMapSubtable
  otherTables : List (String × List Nat)
deriving DecidableEq

/-- A TrueType/OpenType collection: an ordered sequence of fonts. -/
structure TTCollection where
  fonts : List Font
deriving DecidableEq

/-- Modelled from the spec: `font_data.delete_from_cmap(font, chars)`
(nototools, external to this repository) — "for each Font, for each
CharacterMappingSubtable it owns, delete every entry whose key is in
`exclusionSet`.  This is the only mutation performed". -/
def delete_from_cmap (font : Font) (chars : Finset Codepoint) : Font :=
  { font with
    cmapTables := font.cmapTables.map fun t =>
      { t with cmap := t.cmap.filter fun e => decide (e.1 ∉ chars) } }

/-- The in-memory effect of the editor's `for font in ttc:` loop: every font
of the collection passed through `delete_from_cmap` with
`EXCLUDED_CODEPOINTS`. -/
def subsetCollection (ttc : TTCollection) : TTCollection :=
  { fonts := ttc.fonts.map fun font => delete_from_cmap font EXCLUDED_CODEPOINTS }

/-- A filesystem path, as the directory part and the base name
(`ttc_path.name` in the source). -/
structure FsPath where
  dir : String
  name : String
deriving DecidableEq

/-- Contents of one file: either a serialized font collection, or any byte
sequence that is not a valid collection (e.g. a truncated / zero-byte file). -/
inductive FileData where
  | collection (c : TTCollection)
  | other (bytes : List Nat)
deriving DecidableEq

/-- Modelled from the spec: parsing a file with `ttLib.TTCollection`
(fontTools, external to this repository) — succeeds exactly on a valid
collection container, "Fails with a ParseError if the file is not a valid
collection container". -/
def parseCollection : FileData → Option TTCollection
  | .collection c => some c
  | .other _ => none

/-- Modelled from the spec: `TTCollection.save` serializes the mutated
collection, so the saved bytes parse back to the same collection ("the output
container parses successfully under the same format rules as the input"). -/
def serializeCollection (c : TTCollection) : FileData :=
  .collection c

/-- The filesystem state threaded through the embedded procedures: file
contents by path, and which directories exist. -/
structure FileSystem where
  files : FsPath → Option FileData
  dirs : String → Bool

/-- The errors `remove_codepoints_from_ttc` can surface: a fontTools parse
failure on load, or an OS failure on save. -/
inductive EditError where
  | parseError
  | writeError
deriving DecidableEq

/-- `remove_codepoints_from_ttc(ttc_path, out_dir)`, embedded with explicit
filesystem state: load the collection at `ttc_path` (a parse failure aborts
before anything is written), delete `EXCLUDED_CODEPOINTS` from every font's
cmap, and save the result to `out_dir / ttc_path.name`.  Saving requires the
destination directory to exist (the function itself creates no directory);
the logging calls and the size report are display-only side effects with no
bearing on the state.  On an error the filesystem is returned unchanged. -/
def remove_codepoints_from_ttc (fs : FileSystem) (ttc_path : FsPath)
    (out_dir : String) : Except EditError Unit × FileSystem :=
  match fs.files ttc_path with
  | none => (.error .parseError, fs)
  | some data =>
    match parseCollection data with
    | none => (.error .parseError, fs)
    | some ttc =>
      let edited := subsetCollection ttc
      let out_path : FsPath := ⟨out_dir, ttc_path.name⟩
      if fs.dirs out_dir then
        (.ok (),
         { fs with
           files := fun q =>
             if q = out_path then some (serializeCollection edited)
             else fs.files q })
      else (.error .writeError, fs)

/-- Modelled from the spec: the narrow slice of an `httpx` streamed response
that `download_file` consults — the status code, and the body that the
`iter_bytes` chunks concatenate to. -/
structure HttpResponse where
  status_code : Nat
  body : FileData

/-- The effect on the filesystem of `open(save_path_file_name, "wb")`: the
file at `save_path` is created, or truncated to zero bytes (zero bytes are
not a valid collection, hence `.other []`). -/
def truncateAt (fs : FileSystem) (save_path : FsPath) : FileSystem :=
  { fs with
    files := fun q =>
      if q = save_path then some (.other []) else fs.files q }

/-- `download_file(url, save_path_file_name)`, embedded with explicit
filesystem state over the response the URL yields.  The source opens the
destination with mode "wb" — creating the file or truncating it to zero
bytes — before the status code is examined; a non-200 status then logs and
returns `False` with the (empty) file left in place, while on status 200 the
body is copied chunk by chunk into the file and `True` is returned (the tqdm
progress bar is display-only).  Opening fails if the destination directory
does not exist. -/
def download_file (fs : FileSystem) (resp : HttpResponse) (save_path : FsPath) :
    Option (Bool × FileSystem) :=
  if fs.dirs save_path.dir then
    if resp.status_code ≠ 200 then
      some (false, truncateAt fs save_path)
    else
      some (true,
        { fs with
          files := fun q =>
            if q = save_path then some resp.body else fs.files q })
  else none

/-! ### Concrete fixtures used by scenarios, witnesses and counterexamples -/

/-- The subtable of spec Scenario 1: `{0x0041 → 17, 0x26BD → 302, 0x0009 → 5}`. -/
def scenarioSubtable : CMapSubtable :=
  ⟨3, 10, 12, [(0x41, 17), (0x26BD, 302), (0x9, 5)]⟩

/-- A one-subtable font with some opaque non-mapping tables. -/
def scenarioFont : Font :=
  ⟨[scenarioSubtable], [("glyf", [7, 7, 7]), ("name", [1, 2])]⟩

/-- A one-font collection for Scenario 1. -/
def scenarioTTC : TTCollection :=
  ⟨[scenarioFont]⟩

/-- A concrete input path. -/
def scenarioPath : FsPath :=
  ⟨"temp", "NotoSansCJK.ttc"⟩

/-- A filesystem holding only the Scenario 1 collection, all directories
present. -/
def scenarioFS : FileSystem :=
  ⟨fun q => if q = scenarioPath then some (.collection scenarioTTC) else none,
   fun _ => true⟩

/-- A filesystem whose only file is a zero-byte (hence malformed) input. -/
def zeroByteFS : FileSystem :=
  ⟨fun q => if q = scenarioPath then some (.other []) else none,
   fun _ => true⟩

/-- The Scenario 1 filesystem but with no directory existing. -/
def noDirFS : FileSystem :=
  ⟨fun q => if q = scenarioPath then some (.collection scenarioTTC) else none,
   fun _ => false⟩

/-- The result of one editor run on the Scenario 1 filesystem with output
directory "out". -/
def scenarioEditResult : Except EditError Unit × FileSystem :=
  remove_codepoints_from_ttc scenarioFS scenarioPath "out"

/-- The result of re-running the editor on its own Scenario 1 output. -/
def scenarioEditResult2 : Except EditError Unit × FileSystem :=
  remove_codepoints_from_ttc scenarioEditResult.2 ⟨"out", "NotoSansCJK.ttc"⟩ "out2"

/-! ### Predicates used in the claim statements -/

/-- No entry of any cmap subtable of any font of the collection has a key in
`EXCLUDED_CODEPOINTS`. -/
def noExcludedEntries (ttc : TTCollection) : Prop :=
  ∀ f ∈ ttc.fonts, ∀ t ∈ f.cmapTables, ∀ e ∈ t.cmap, e.1 ∉ EXCLUDED_CODEPOINTS

/-- Every (codepoint, glyphId) entry of the input subtable whose codepoint is
not excluded appears identically in the output subtable. -/
def preservedSubtable (tIn tOut : CMapSubtable) : Prop :=
  ∀ e ∈ tIn.cmap, e.1 ∉ EXCLUDED_CODEPOINTS → e ∈ tOut.cmap

/-- Subtable-wise preservation between corresponding fonts (positional
correspondence of the subtables). -/
def preservedFont (fIn fOut : Font) : Prop :=
  List.Forall₂ preservedSubtable fIn.cmapTables fOut.cmapTables

/-- The output subtable carries the same platform / encoding / format
identifiers as the corresponding input subtable. -/
def sameSubtableIds (tIn tOut : CMapSubtable) : Prop :=
  tOut.platformID = tIn.platformID ∧ tOut.platEncID = tIn.platEncID ∧
    tOut.format = tIn.format

/-- Between corresponding fonts: the non-mapping tables are unchanged and the
subtables correspond one-to-one with unchanged identifiers. -/
def sameFontFrame (fIn fOut : Font) : Prop :=
  fOut.otherTables = fIn.otherTables ∧
    List.Forall₂ sameSubtableIds fIn.cmapTables fOut.cmapTables

/-! ### Helper lemmas -/

/-- Every entry surviving `delete_from_cmap` has its key outside `chars`. -/
lemma delete_from_cmap_no_member (f : Font) (chars : Finset Codepoint) :
    ∀ t ∈ (delete_from_cmap f chars).cmapTables, ∀ e ∈ t.cmap, e.1 ∉ chars := by
  intro t ht e he
  unfold delete_from_cmap at ht
  simp only [List.mem_map] at ht
  obtain ⟨t0, _, rfl⟩ := ht
  simp only [List.mem_filter, decide_eq_true_eq] at he
  exact he.2

/-- Entries whose key is not excluded survive `delete_from_cmap` with
`EXCLUDED_CODEPOINTS` in their subtable, unchanged. -/
lemma delete_from_cmap_preserves (f : Font) :
    preservedFont f (delete_from_cmap f EXCLUDED_CODEPOINTS) := by
  unfold preservedFont delete_from_cmap
  simp only [List.forall₂_map_right_iff]
  rw [List.forall₂_same]
  intro t _ e he hnot
  exact List.mem_filter.mpr ⟨he, decide_eq_true hnot⟩

/-- `delete_from_cmap` keeps the table identifiers and the non-mapping
tables of the font. -/
lemma delete_from_cmap_frame (f : Font) (chars : Finset Codepoint) :
    sameFontFrame f (delete_from_cmap f chars) := by
  refine ⟨rfl, ?_⟩
  unfold delete_from_cmap
  simp only [List.forall₂_map_right_iff]
  rw [List.forall₂_same]
  exact fun t _ => ⟨rfl, rfl, rfl⟩

/-- `delete_from_cmap` is idempotent: a second pass removes nothing. -/
lemma delete_from_cmap_idem (f : Font) (chars : Finset Codepoint) :
    delete_from_cmap (delete_from_cmap f chars) chars = delete_from_cmap f chars := by
  unfold delete_from_cmap
  simp [List.map_map, Function.comp, List.filter_filter]

/-- `subsetCollection` is idempotent. -/
lemma subsetCollection_idem (ttc : TTCollection) :
    subsetCollection (subsetCollection ttc) = subsetCollection ttc := by
  unfold subsetCollection
  simp only [List.map_map, Function.comp]
  exact congrArg TTCollection.mk
    (List.map_congr_left fun f _ => delete_from_cmap_idem f EXCLUDED_CODEPOINTS)

/-- Inversion of a successful editor run: the input held a collection, the
output filesystem has the subsetted collection at `out_dir / name`, and every
other path is untouched. -/
lemma remove_ok_inversion (fs : FileSystem) (p : FsPath) (d : String)
    (fs' : FileSystem)
    (h : remove_codepoints_from_ttc fs p d = (.ok (), fs')) :
    ∃ ttc, fs.files p = some (.collection ttc) ∧
      fs'.files ⟨d, p.name⟩ = some (.collection (subsetCollection ttc)) ∧
      ∀ q, q ≠ (⟨d, p.name⟩ : FsPath) → fs'.files q = fs.files q := by
  cases hfile : fs.files p with
  | none =>
    simp [remove_codepoints_from_ttc, hfile] at h
  | some data =>
    cases data with
    | other bytes =>
      simp [remove_codepoints_from_ttc, hfile, parseCollection] at h
    | collection c =>
      by_cases hdir : fs.dirs d
      · simp only [remove_codepoints_from_ttc, hfile, parseCollection, hdir,
          if_true, Prod.mk.injEq, true_and] at h
        subst h
        refine ⟨c, rfl, ?_, ?_⟩
        · simp [serializeCollection]
        · intro q hq
          simp [hq]
      · simp [remove_codepoints_from_ttc, hfile, parseCollection, hdir] at h

/-- On any error the editor leaves the filesystem unchanged. -/
lemma remove_error_unchanged (fs : FileSystem) (p : FsPath) (d : String) :
    ∀ e, (remove_codepoints_from_ttc fs p d).1 = .error e →
      (remove_codepoints_from_ttc fs p d).2 = fs := by
  intro e he
  cases hfile : fs.files p with
  | none => simp [remove_codepoints_from_ttc, hfile]
  | some data =>
    cases data with
    | other bytes => simp [remove_codepoints_from_ttc, hfile, parseCollection]
    | collection c =>
      by_cases hdir : fs.dirs d
      · simp [remove_codepoints_from_ttc, hfile, parseCollection, hdir] at he
      · simp [remove_codepoints_from_ttc, hfile, parseCollection, hdir]

/-! ### Claim theorems -/

/-- C1.  Exclusion completeness: whenever `remove_codepoints_from_ttc`
succeeds, the collection it wrote at `out_dir / name` has, in every font and
every character-mapping subtable, no entry whose key is in
`EXCLUDED_CODEPOINTS`. -/
theorem exclusion_completeness (fs : FileSystem) (p : FsPath) (d : String)
    (fs' : FileSystem)
    (h : remove_codepoints_from_ttc fs p d = (.ok (), fs'))
    (ttc : TTCollection)
    (hc : fs'.files ⟨d, p.name⟩ = some (.collection ttc)) :
    noExcludedEntries ttc := by
  obtain ⟨ttcIn, _, hout, _⟩ := remove_ok_inversion fs p d fs' h
  rw [hc] at hout
  have heq : ttc = subsetCollection ttcIn := by
    simpa using hout
  subst heq
  intro f hf t ht e he
  simp only [subsetCollection, List.mem_map] at hf
  obtain ⟨f0, _, rfl⟩ := hf
  exact delete_from_cmap_no_member f0 EXCLUDED_CODEPOINTS t ht e he

/-- C1 witness: the theorem applied to the Scenario 1 run. -/
theorem exclusion_completeness_witness :
    noExcludedEntries (subsetCollection scenarioTTC) :=
  exclusion_completeness scenarioFS scenarioPath "out" scenarioEditResult.2
    (Prod.ext rfl rfl) (subsetCollection scenarioTTC) rfl

/-- C2.  Preservation: whenever `remove_codepoints_from_ttc` succeeds, every
(codepoint, glyphId) entry of the input whose codepoint is not excluded is
present, unchanged, in the corresponding subtable of the corresponding font
of the written output. -/
theorem preservation (fs : FileSystem) (p : FsPath) (d : String)
    (fs' : FileSystem)
    (h : remove_codepoints_from_ttc fs p d = (.ok (), fs'))
    (ttcIn ttcOut : TTCollection)
    (hin : fs.files p = some (.collection ttcIn))
    (hout : fs'.files ⟨d, p.name⟩ = some (.collection ttcOut)) :
    List.Forall₂ preservedFont ttcIn.fonts ttcOut.fonts := by
  obtain ⟨ttc0, hin0, hout0, _⟩ := remove_ok_inversion fs p d fs' h
  rw [hin0] at hin
  have hi : ttc0 = ttcIn := by simpa using hin
  subst hi
  rw [hout0] at hout
  have ho : subsetCollection ttc0 = ttcOut := by simpa using hout
  subst ho
  simp only [subsetCollection, List.forall₂_map_right_iff]
  rw [List.forall₂_same]
  exact fun f _ => delete_from_cmap_preserves f

/-- C2 witness: the theorem applied to the Scenario 1 run. -/
theorem preservation_witness :
    List.Forall₂ preservedFont scenarioTTC.fonts
      (subsetCollection scenarioTTC).fonts :=
  preservation scenarioFS scenarioPath "out" scenarioEditResult.2
    (Prod.ext rfl rfl) scenarioTTC (subsetCollection scenarioTTC) rfl rfl

/-- C3.  The computed exclusion set is exactly the union of the enumerated
emoji-in-CJK list, the enumerated Android emoji-override list, and the full
inclusive range [0x0000, 0x001F], with no other elements (and, being a
constant of a pure definition, it is the same on every evaluation). -/
theorem excluded_codepoints_eq_union :
    ∀ c : Nat, c ∈ EXCLUDED_CODEPOINTS ↔
      (c ∈ EMOJI_IN_CJK ∨ c ∈ ANDROID_EMOJI ∨ c ≤ 0x1F) := by
  intro c
  have h32 : c < 0x20 ↔ c ≤ 0x1F := ⟨fun h => by omega, fun h => by omega⟩
  simp [EXCLUDED_CODEPOINTS, CONTROL_CHARS, parse_int_ranges_0000_001F,
    List.mem_range, h32]

/-- C4.  Structural invariance: whenever `remove_codepoints_from_ttc`
succeeds, the written collection has the same font count and font order as
the input, every font keeps its non-mapping tables unchanged, and the cmap
subtables correspond one-to-one with unchanged identifiers. -/
theorem structural_invariance (fs : FileSystem) (p : FsPath) (d : String)
    (fs' : FileSystem)
    (h : remove_codepoints_from_ttc fs p d = (.ok (), fs'))
    (ttcIn ttcOut : TTCollection)
    (hin : fs.files p = some (.collection ttcIn))
    (hout : fs'.files ⟨d, p.name⟩ = some (.collection ttcOut)) :
    ttcOut.fonts.length = ttcIn.fonts.length ∧
    List.Forall₂ sameFontFrame ttcIn.fonts ttcOut.fonts := by
  obtain ⟨ttc0, hin0, hout0, _⟩ := remove_ok_inversion fs p d fs' h
  rw [hin0] at hin
  have hi : ttc0 = ttcIn := by simpa using hin
  subst hi
  rw [hout0] at hout
  have ho : subsetCollection ttc0 = ttcOut := by simpa using hout
  subst ho
  constructor
  · simp [subsetCollection]
  · simp only [subsetCollection, List.forall₂_map_right_iff]
    rw [List.forall₂_same]
    exact fun f _ => delete_from_cmap_frame f EXCLUDED_CODEPOINTS

/-- C4 witness: the theorem applied to the Scenario 1 run. -/
theorem structural_invariance_witness :
    (subsetCollection scenarioTTC).fonts.length = scenarioTTC.fonts.length ∧
    List.Forall₂ sameFontFrame scenarioTTC.fonts
      (subsetCollection scenarioTTC).fonts :=
  structural_invariance scenarioFS scenarioPath "out" scenarioEditResult.2
    (Prod.ext rfl rfl) scenarioTTC (subsetCollection scenarioTTC) rfl rfl

/-- C5.  Error atomicity: a malformed (e.g. zero-byte) input makes the editor
fail with a parse error and leave the filesystem — in particular the output
path — exactly as it was; and on any error whatsoever the filesystem is
returned unchanged, so either the full rewritten container is written or
nothing is. -/
theorem error_atomicity (fs : FileSystem) (p : FsPath) (d : String) :
    (∀ bytes, fs.files p = some (.other bytes) →
      remove_codepoints_from_ttc fs p d = (.error .parseError, fs)) ∧
    (∀ e, (remove_codepoints_from_ttc fs p d).1 = .error e →
      (remove_codepoints_from_ttc fs p d).2 = fs) := by
  constructor
  · intro bytes hb
    simp [remove_codepoints_from_ttc, hb, parseCollection]
  · exact remove_error_unchanged fs p d

/-- C5 witness: a zero-byte input file fails with a parse error and the
filesystem is unchanged. -/
theorem error_atomicity_witness :
    remove_codepoints_from_ttc zeroByteFS scenarioPath "out" =
      (.error .parseError, zeroByteFS) :=
  (error_atomicity zeroByteFS scenarioPath "out").1 [] rfl

/-- C6.  Idempotence: re-running the editor on its own output (with the same
built-in exclusion set) writes a file with exactly the same content — the
second run removes nothing further. -/
theorem edit_idempotent (fs : FileSystem) (p : FsPath) (d d' : String)
    (fs' fs'' : FileSystem)
    (h1 : remove_codepoints_from_ttc fs p d = (.ok (), fs'))
    (h2 : remove_codepoints_from_ttc fs' ⟨d, p.name⟩ d' = (.ok (), fs'')) :
    fs''.files ⟨d', p.name⟩ = fs'.files ⟨d, p.name⟩ := by
  obtain ⟨ttc1, _, hout1, _⟩ := remove_ok_inversion fs p d fs' h1
  obtain ⟨ttc2, hin2, hout2, _⟩ := remove_ok_inversion fs' ⟨d, p.name⟩ d' fs'' h2
  rw [hout1] at hin2
  have hc : subsetCollection ttc1 = ttc2 := by simpa using hin2
  subst hc
  rw [hout1, hout2, subsetCollection_idem]

/-- C6 witness: the theorem applied to the Scenario 1 run and its re-run. -/
theorem edit_idempotent_witness :
    scenarioEditResult2.2.files ⟨"out2", "NotoSansCJK.ttc"⟩ =
      scenarioEditResult.2.files ⟨"out", "NotoSansCJK.ttc"⟩ :=
  edit_idempotent scenarioFS scenarioPath "out" "out2"
    scenarioEditResult.2 scenarioEditResult2.2
    (Prod.ext rfl rfl) (Prod.ext rfl rfl)

/-- C7.  Scenario 1: on a collection with one font whose subtable is exactly
{0x0041 → 17, 0x26BD → 302, 0x0009 → 5}, the editor succeeds and writes a
collection whose subtable is exactly {0x0041 → 17}. -/
theorem scenario1_exact_output :
    scenarioEditResult.1 = .ok () ∧
    scenarioEditResult.2.files ⟨"out", "NotoSansCJK.ttc"⟩ =
      some (.collection ⟨[⟨[⟨3, 10, 12, [(0x41, 17)]⟩],
        [("glyf", [7, 7, 7]), ("name", [1, 2])]⟩]⟩) :=
  ⟨rfl, by decide⟩

/-- C8 counterexample: when the output directory equals the input's
directory, the editor does overwrite the input in place — the input path's
content changes — refuting "never an in-place overwrite of the input". -/
theorem inplace_overwrite_counterexample :
    (remove_codepoints_from_ttc scenarioFS scenarioPath "temp").2.files
        scenarioPath = some (.collection (subsetCollection scenarioTTC)) ∧
    scenarioFS.files scenarioPath = some (.collection scenarioTTC) ∧
    subsetCollection scenarioTTC ≠ scenarioTTC :=
  ⟨rfl, rfl, by decide⟩

/-- C8 (amended).  A successful editor run writes the subsetted collection at
exactly `out_dir` joined with the input file's base name and changes no other
path; nothing prevents `out_dir` from being the input's own directory. -/
theorem output_path_spec (fs : FileSystem) (p : FsPath) (d : String)
    (fs' : FileSystem)
    (h : remove_codepoints_from_ttc fs p d = (.ok (), fs')) :
    (∃ ttc, fs.files p = some (.collection ttc) ∧
      fs'.files ⟨d, p.name⟩ = some (.collection (subsetCollection ttc))) ∧
    ∀ q, q ≠ (⟨d, p.name⟩ : FsPath) → fs'.files q = fs.files q := by
  obtain ⟨ttc, h1, h2, h3⟩ := remove_ok_inversion fs p d fs' h
  exact ⟨⟨ttc, h1, h2⟩, h3⟩

/-- C8 witness: in the Scenario 1 run a path other than the output path is
untouched. -/
theorem output_path_spec_witness :
    scenarioEditResult.2.files ⟨"elsewhere", "x.ttc"⟩ =
      scenarioFS.files ⟨"elsewhere", "x.ttc"⟩ :=
  (output_path_spec scenarioFS scenarioPath "out" scenarioEditResult.2
    (Prod.ext rfl rfl)).2 ⟨"elsewhere", "x.ttc"⟩ (by decide)

/-- C9 counterexample: with a valid input but no existing output directory
the call fails with a write error and the filesystem — directories included —
is unchanged: the editor does not create the missing directory and the call
does not succeed. -/
theorem missing_outdir_counterexample :
    remove_codepoints_from_ttc noDirFS scenarioPath "out" =
      (.error .writeError, noDirFS) ∧
    (remove_codepoints_from_ttc noDirFS scenarioPath "out").2.dirs "out" =
      false :=
  ⟨rfl, rfl⟩

/-- C9 (amended).  The editor itself never creates the output directory: if
the destination directory does not exist, the save step fails with a write
error and the filesystem is returned unchanged (its caller
`download_and_patch_noto_cjk_font` is what creates the directory before
invoking the editor). -/
theorem missing_outdir_fails (fs : FileSystem) (p : FsPath) (d : String)
    (ttc : TTCollection)
    (hin : fs.files p = some (.collection ttc))
    (hdir : fs.dirs d = false) :
    remove_codepoints_from_ttc fs p d = (.error .writeError, fs) := by
  simp [remove_codepoints_from_ttc, hin, parseCollection, hdir]

/-- C9 witness: the amended theorem applied to a concrete filesystem with no
directories. -/
theorem missing_outdir_fails_witness :
    remove_codepoints_from_ttc noDirFS scenarioPath "nonexistent" =
      (.error .writeError, noDirFS) :=
  missing_outdir_fails noDirFS scenarioPath "nonexistent" scenarioTTC rfl rfl

/-- C10.  A response with a status code other than 200 makes `download_file`
return `False`, but the destination was already opened in write mode before
the status check, so a zero-byte file is left at the destination path. -/
theorem download_failure_leaves_empty_file (fs : FileSystem)
    (resp : HttpResponse) (p : FsPath)
    (hdir : fs.dirs p.dir = true) (hstatus : resp.status_code ≠ 200) :
    download_file fs resp p = some (false, truncateAt fs p) ∧
    (truncateAt fs p).files p = some (.other []) := by
  constructor
  · simp [download_file, hdir, hstatus]
  · simp [truncateAt]

/-- C10 witness: a 404 response leaves an empty file at the destination. -/
theorem download_failure_witness :
    download_file scenarioFS ⟨404, .other [1, 2, 3]⟩ ⟨"temp", "dl.ttc"⟩ =
      some (false, truncateAt scenarioFS ⟨"temp", "dl.ttc"⟩) ∧
    (truncateAt scenarioFS ⟨"temp", "dl.ttc"⟩).files ⟨"temp", "dl.ttc"⟩ =
      some (.other []) :=
  download_failure_leaves_empty_file scenarioFS ⟨404, .other [1, 2, 3]⟩
    ⟨"temp", "dl.ttc"⟩ rfl (by decide)

end ChwsSubset
